import Mathlib

/-!
Verification development for the Forage Figma bridge and plugin engine.

Part 1 embeds the correlation bridge (`packages/mcp-server/src/bridge.ts`,
class `PluginBridge`) as an explicit state machine over event traces.

Part 2 embeds the plugin-side query/transform engine
(`packages/plugin/src/code.ts`): the node projector `simplifyNode`, the
variant differ of `handleCompareVariants`, the similarity scorer
`computeSimilarity`, the tree navigator `handleGetChildren`, and the state
inference engine `handleInferStates`.

Modelling conventions:
  * JavaScript numbers are modelled as exact rationals (`Rat`).
  * Attribute values are modelled by their serialized form (a `String`):
    the source only ever inspects attribute values via `JSON.stringify`
    equality, so a canonical injective rendering is a faithful view.
  * The single-threaded JavaScript event loop delivers callbacks one at a
    time; the bridge is therefore a sequential transition system whose
    events are the callbacks (`connection`, `message`, timer, `close`,
    `error`) and the public `send` entry point.
-/

namespace Forage

/-! ### Part 1: the correlation bridge (`bridge.ts`) -/

/-- How a pending request's promise got settled. -/
inductive Outcome where
  | resolved
  | rejectedError
  | rejectedTimeout
  | rejectedDisconnect
deriving DecidableEq, Repr

/-- The mutable state of a `PluginBridge` instance.  Connections are named
by numeric identifiers.  `plugin` is the `this.plugin` slot; `openConns`
is the set of sockets whose `readyState` is `OPEN`; `everConns` records
sockets that were ever accepted (so have handlers attached).  A pending
request is `(correlation id, connection it was written to)`; the per-entry
timer of the source is armed exactly while the entry is in the map, since
every removal path calls `clearTimeout` first.  `log` records each
resolve/reject callback that has fired, in order. -/
structure BridgeState where
  plugin : Option Nat
  openConns : List Nat
  everConns : List Nat
  pending : List (Nat × Nat)
  nextId : Nat
  log : List (Nat × Outcome)
deriving DecidableEq, Repr

/-- The bridge right after the constructor ran: no plugin, nothing pending. -/
def initState : BridgeState :=
  { plugin := none, openConns := [], everConns := [], pending := [], nextId := 0, log := [] }

/-- `send`'s guard: `this.plugin && this.plugin.readyState === WebSocket.OPEN`. -/
def liveConn (s : BridgeState) : Bool :=
  match s.plugin with
  | none => false
  | some c => s.openConns.contains c

/-- `handleConnection`: if a plugin is already connected and open it is
closed (`this.plugin.close()` leaves `readyState ≠ OPEN`; the `close`
event for it fires later, as a separate trace event); then the new socket
becomes `this.plugin`. -/
def stepConnect (s : BridgeState) (c : Nat) : BridgeState :=
  let s1 :=
    match s.plugin with
    | some old =>
        if s.openConns.contains old then
          { s with openConns := s.openConns.filter (fun x => x ≠ old) }
        else s
    | none => s
  { s1 with plugin := some c,
            openConns := c :: s1.openConns,
            everConns := c :: s1.everConns }

/-- The `message` handler: parse the frame, look the id up in
`pendingRequests`; a stray id is dropped silently; otherwise clear the
timer, delete the entry, and resolve or reject depending on the `error`
field of the response. -/
def stepMessage (s : BridgeState) (rid : Nat) (isErr : Bool) : BridgeState :=
  match s.pending.lookup rid with
  | none => s
  | some _ =>
      { s with pending := s.pending.filter (fun p => p.1 ≠ rid),
               log := s.log ++ [(rid, if isErr then Outcome.rejectedError else Outcome.resolved)] }

/-- The per-request timer callback: delete the entry and reject with the
timeout error.  The timer is armed exactly while the entry is pending
(every other removal path runs `clearTimeout` first), so the event is a
no-op when the id is absent. -/
def stepTimeout (s : BridgeState) (rid : Nat) : BridgeState :=
  if (s.pending.lookup rid).isSome then
    { s with pending := s.pending.filter (fun p => p.1 ≠ rid),
             log := s.log ++ [(rid, Outcome.rejectedTimeout)] }
  else s

/-- The `close` handler of socket `c`: clear `this.plugin` if it still
points at `c`, then reject **every** entry of the shared pending map with
the disconnection error and delete it.  Note the bulk rejection is not
scoped to the connection that closed. -/
def stepClose (s : BridgeState) (c : Nat) : BridgeState :=
  { s with plugin := if s.plugin = some c then none else s.plugin,
           openConns := s.openConns.filter (fun x => x ≠ c),
           pending := [],
           log := s.log ++ s.pending.map (fun p => (p.1, Outcome.rejectedDisconnect)) }

/-- The `error` handler only writes to the console; bridge state is
untouched. -/
def stepErrorEvt (s : BridgeState) (_c : Nat) : BridgeState := s

/-- `send`: with no live connection it throws before touching any state;
otherwise it increments `nextId`, registers the pending entry with its
timer, and writes the frame. -/
def stepSend (s : BridgeState) : BridgeState :=
  if liveConn s then
    { s with nextId := s.nextId + 1,
             pending := (s.nextId + 1, s.plugin.getD 0) :: s.pending }
  else s

/-- What the `send` caller observes immediately: the allocated correlation
id, or the synchronous `ConnectionError` throw. -/
inductive SendOutcome where
  | accepted (rid : Nat)
  | connectionError
deriving DecidableEq, Repr

/-- The value/exception produced by `send` on state `s`. -/
def sendResult (s : BridgeState) : SendOutcome :=
  if liveConn s then SendOutcome.accepted (s.nextId + 1) else SendOutcome.connectionError

/-- The callbacks the host can deliver to the bridge, plus the public
`send` entry point. -/
inductive Event where
  | connect (c : Nat)
  | message (rid : Nat) (isErr : Bool)
  | timeout (rid : Nat)
  | closeEvt (c : Nat)
  | errorEvt (c : Nat)
  | send
deriving DecidableEq, Repr

/-- One transition of the bridge. -/
def step (s : BridgeState) : Event → BridgeState
  | Event.connect c => stepConnect s c
  | Event.message rid isErr => stepMessage s rid isErr
  | Event.timeout rid => stepTimeout s rid
  | Event.closeEvt c => stepClose s c
  | Event.errorEvt c => stepErrorEvt s c
  | Event.send => stepSend s

/-- Run an event trace from the freshly constructed bridge. -/
def run (es : List Event) : BridgeState :=
  es.foldl step initState

/-- Number of resolve/reject callbacks that have fired for request `rid`. -/
def resCount (lg : List (Nat × Outcome)) (rid : Nat) : Nat :=
  lg.countP (fun e => e.1 == rid)

/-- Number of pending-map entries carrying correlation id `rid`. -/
def pendCount (pend : List (Nat × Nat)) (rid : Nat) : Nat :=
  pend.countP (fun p => p.1 == rid)

/-- The bridge invariant: every allocated correlation id (`1 ≤ rid ≤
nextId`) is *either* still pending with no callback fired *or* settled by
exactly one callback with its entry removed; unallocated ids appear
nowhere. -/
structure Inv (s : BridgeState) : Prop where
  alloc : ∀ rid, 1 ≤ rid → rid ≤ s.nextId →
    resCount s.log rid + pendCount s.pending rid = 1
  unalloc : ∀ rid, s.nextId < rid →
    resCount s.log rid = 0 ∧ pendCount s.pending rid = 0
  zero : resCount s.log 0 = 0 ∧ pendCount s.pending 0 = 0

/-! ### Part 2: the plugin engine (`code.ts`)

String primitives.  The Lean core versions of `splitOn`, `trim` and
`toLower` are defined by well-founded recursion on string positions, which
the kernel cannot evaluate; the equivalents below are structurally
recursive over the character list so that concrete instances reduce. -/

/-- `String.prototype.toLowerCase` (ASCII, which covers the vocabulary the
source compares case-insensitively). -/
def jsToLower (s : String) : String :=
  ⟨s.data.map Char.toLower⟩

/-- `String.prototype.trim`: strip leading and trailing whitespace. -/
def jsTrim (s : String) : String :=
  ⟨((s.data.dropWhile Char.isWhitespace).reverse.dropWhile Char.isWhitespace).reverse⟩

/-- Is `sep` a prefix of `cs`? -/
def isPrefixCL : List Char → List Char → Bool
  | [], _ => true
  | _ :: _, [] => false
  | a :: as, b :: bs => a == b && isPrefixCL as bs

/-- Worker for `jsSplitOn`; `fuel` is an upper bound on the characters
still to be consumed, making the recursion structural. -/
def jsSplitAux (sep : List Char) : Nat → List Char → List Char → List (List Char)
  | _, [], acc => [acc.reverse]
  | 0, cs, acc => [acc.reverse ++ cs]
  | fuel + 1, c :: rest, acc =>
      if isPrefixCL sep (c :: rest) then
        acc.reverse :: jsSplitAux sep fuel (List.drop sep.length (c :: rest)) []
      else
        jsSplitAux sep fuel rest (c :: acc)

/-- `String.prototype.split(sep)` for a non-empty separator. -/
def jsSplitOn (s : String) (sep : String) : List String :=
  (jsSplitAux sep.data s.data.length s.data []).map (fun cs => ⟨cs⟩)

/-- Decimal rendering of a natural number. -/
def natStr (n : Nat) : String :=
  ⟨Nat.toDigits 10 n⟩

/-- Decimal rendering of an integer (JavaScript `String(n)` for integers). -/
def intStr (i : Int) : String :=
  (if i < 0 then "-" else "") ++ natStr i.natAbs

/-- Canonical injective rendering of a rational.  Stands in for the JSON
number rendering: the source only ever compares rendered values for
equality, so any injective rendering is faithful. -/
def ratStr (q : Rat) : String :=
  intStr q.num ++ (if q.den == 1 then "" else "/" ++ natStr q.den)

/-- Lowercase hexadecimal rendering, `Number.prototype.toString(16)`. -/
def hexStr (i : Int) : String :=
  (if i < 0 then "-" else "") ++ ⟨Nat.toDigits 16 i.natAbs⟩

/-- `toString(16).padStart(2, "0")`. -/
def byteHex (i : Int) : String :=
  let s := hexStr i
  if s.length < 2 then "0" ++ s else s

/-- `Math.round`: round half toward positive infinity. -/
def jsRound (q : Rat) : Int :=
  ⌊q + 1 / 2⌋

/-- JSON string rendering (escaping is irrelevant to the compared data). -/
def quoteStr (s : String) : String :=
  "\"" ++ s ++ "\""

/-- JSON object rendering of already-rendered field values, in insertion
order. -/
def objStr (fields : List (String × String)) : String :=
  "\x7b" ++ String.intercalate "," (fields.map (fun f => quoteStr f.1 ++ ":" ++ f.2)) ++ "\x7d"

/-- JSON array rendering of already-rendered elements. -/
def arrStr (elems : List String) : String :=
  "[" ++ String.intercalate "," elems ++ "]"

/-- An RGB(A) color; `a = none` models a plain `RGB` without alpha. -/
structure RGBA where
  r : Rat
  g : Rat
  b : Rat
  a : Option Rat := none
deriving DecidableEq

/-- `rgbToHex`: `#rrggbb`, plus an alpha suffix when `a` is present and
below 1. -/
def rgbToHex (c : RGBA) : String :=
  let hex := "#" ++ byteHex (jsRound (c.r * 255)) ++ byteHex (jsRound (c.g * 255))
    ++ byteHex (jsRound (c.b * 255))
  match c.a with
  | some a => if a < 1 then hex ++ byteHex (jsRound (a * 255)) else hex
  | none => hex

/-- One gradient stop. -/
structure GradientStop where
  color : RGBA
  position : Rat
deriving DecidableEq

/-- A paint.  `visible = none` models a paint without the `visible` key
(treated as visible by the `f.visible !== false` filter). -/
structure Paint where
  ptype : String
  visible : Option Bool := none
  color : RGBA := { r := 0, g := 0, b := 0 }
  opacity : Option Rat := none
  gradientStops : List GradientStop := []
deriving DecidableEq

/-- `simplifyPaint`, rendered: `{type, color?, opacity?, gradientStops?}`. -/
def simplifyPaint (p : Paint) : String :=
  objStr ([("type", quoteStr p.ptype)]
    ++ (if p.ptype == "SOLID" then
          [("color", quoteStr (rgbToHex p.color))]
          ++ (match p.opacity with
              | some o => if o ≠ 1 then [("opacity", ratStr o)] else []
              | none => [])
        else [])
    ++ (if p.ptype == "GRADIENT_LINEAR" || p.ptype == "GRADIENT_RADIAL" then
          [("gradientStops", arrStr (p.gradientStops.map (fun st =>
              objStr [("color", quoteStr (rgbToHex st.color)), ("position", ratStr st.position)])))]
        else []))

/-- An effect; `offsetColor` bundles the `offset`/`color` pair read when
`"offset" in effect`. -/
structure EffectOffset where
  x : Rat
  y : Rat
  color : RGBA
deriving DecidableEq

/-- A visual effect. -/
structure Effect where
  etype : String
  visible : Option Bool := none
  radius : Option Rat := none
  offsetColor : Option EffectOffset := none
  spread : Option Rat := none
deriving DecidableEq

/-- `simplifyEffect`, rendered: `{type, radius?, offset?, color?, spread?}`. -/
def simplifyEffect (e : Effect) : String :=
  objStr ([("type", quoteStr e.etype)]
    ++ (match e.radius with | some r => [("radius", ratStr r)] | none => [])
    ++ (match e.offsetColor with
        | some oc =>
            [("offset", objStr [("x", ratStr oc.x), ("y", ratStr oc.y)]),
             ("color", quoteStr (rgbToHex oc.color))]
        | none => [])
    ++ (match e.spread with | some sp => [("spread", ratStr sp)] | none => []))

/-- Auto-layout properties, present when `"layoutMode" in node`. -/
structure LayoutProps where
  layoutMode : String
  primaryAxisAlignItems : String := ""
  counterAxisAlignItems : String := ""
  paddingLeft : Rat := 0
  paddingRight : Rat := 0
  paddingTop : Rat := 0
  paddingBottom : Rat := 0
  itemSpacing : Rat := 0
  counterAxisSpacing : Option Rat := none
deriving DecidableEq

/-- Layout-child properties, present when `"layoutAlign" in node`. -/
structure LayoutChildProps where
  layoutAlign : String
  layoutGrow : Rat
deriving DecidableEq

/-- `cornerRadius`: a plain number, or the `figma.mixed` sentinel with the
four per-corner radii. -/
inductive CornerRadiusVal where
  | uniform (r : Rat)
  | mixedCorners (tl tr br bl : Rat)
deriving DecidableEq

/-- Text properties of a `TEXT` node; `none` in an optional field models
the unresolved `figma.mixed` sentinel (omitted rather than guessed). -/
structure TextProps where
  characters : String
  fontSize : Option Rat := none
  fontName : Option (String × String) := none
  fontWeight : Option Rat := none
  lineHeight : Option String := none
  letterSpacing : Option String := none
  textAlignHorizontal : String := "LEFT"
  textAlignVertical : String := "TOP"
deriving DecidableEq

/-- The attributes of a raw scene node that `simplifyNode` reads.  An
`Option` field being `none` models the key being absent from the node
(the `"key" in node` checks).  `variantProps = none` also covers a `null`
value (both fail the source's truthiness test).  `componentProps` values
and `lineHeight`/`letterSpacing` are pass-through JSON, modelled in
already-rendered form. -/
structure NodeAttrs where
  nid : String
  name : String
  ntype : String
  visible : Bool := true
  width : Option Rat := none
  height : Option Rat := none
  layout : Option LayoutProps := none
  layoutChild : Option LayoutChildProps := none
  mainComponentId : Option String := none
  variantProps : Option (List (String × String)) := none
  componentProps : Option (List (String × String)) := none
  fills : Option (List Paint) := none
  strokes : Option (List Paint) := none
  effects : Option (List Effect) := none
  opacity : Option Rat := none
  cornerRadius : Option CornerRadiusVal := none
  text : Option TextProps := none
deriving DecidableEq

/-- A raw scene node: attributes plus children; `children = none` models a
node type without the `children` property. -/
inductive RawNode where
  | node (attrs : NodeAttrs) (children : Option (List RawNode))

/-- The attributes of a raw node. -/
def RawNode.attrs : RawNode → NodeAttrs
  | .node a _ => a

/-- The children slot of a raw node. -/
def RawNode.children : RawNode → Option (List RawNode)
  | .node _ cs => cs

/-- The identity fields, always emitted first. -/
def identFields (a : NodeAttrs) : List (String × String) :=
  [("id", quoteStr a.nid), ("name", quoteStr a.name), ("type", quoteStr a.ntype)]

/-- `visible` is emitted only when false. -/
def visibleFields (a : NodeAttrs) : List (String × String) :=
  if a.visible then [] else [("visible", "false")]

/-- `width`/`height`, rounded to the nearest integer. -/
def sizeFields (a : NodeAttrs) : List (String × String) :=
  (match a.width with | some w => [("width", intStr (jsRound w))] | none => [])
  ++ (match a.height with | some h => [("height", intStr (jsRound h))] | none => [])

/-- Auto-layout block, emitted only when the layout mode is not `"NONE"`. -/
def layoutFields (a : NodeAttrs) : List (String × String) :=
  match a.layout with
  | some l =>
      if l.layoutMode ≠ "NONE" then
        [("layoutMode", quoteStr l.layoutMode),
         ("primaryAxisAlignItems", quoteStr l.primaryAxisAlignItems),
         ("counterAxisAlignItems", quoteStr l.counterAxisAlignItems),
         ("paddingLeft", ratStr l.paddingLeft),
         ("paddingRight", ratStr l.paddingRight),
         ("paddingTop", ratStr l.paddingTop),
         ("paddingBottom", ratStr l.paddingBottom),
         ("itemSpacing", ratStr l.itemSpacing)]
        ++ (match l.counterAxisSpacing with
            | some cas => [("counterAxisSpacing", ratStr cas)]
            | none => [])
      else []
  | none => []

/-- Layout-child block: `layoutAlign` unless inherited, `layoutGrow`
unless 0. -/
def layoutChildFields (a : NodeAttrs) : List (String × String) :=
  match a.layoutChild with
  | some lc =>
      (if lc.layoutAlign ≠ "INHERIT" then [("layoutAlign", quoteStr lc.layoutAlign)] else [])
      ++ (if lc.layoutGrow ≠ 0 then [("layoutGrow", ratStr lc.layoutGrow)] else [])
  | none => []

/-- Component-kind flags and the instance's main component id. -/
def componentFlagFields (a : NodeAttrs) : List (String × String) :=
  (if a.ntype == "COMPONENT" then [("isComponent", "true")] else [])
  ++ (if a.ntype == "COMPONENT_SET" then [("isComponentSet", "true")] else [])
  ++ (if a.ntype == "INSTANCE" then
        [("isInstance", "true")]
        ++ (match a.mainComponentId with
            | some mc => [("mainComponentId", quoteStr mc)]
            | none => [])
      else [])

/-- `variantProperties`, when present and non-null. -/
def variantPropFields (a : NodeAttrs) : List (String × String) :=
  match a.variantProps with
  | some vp => [("variantProperties", objStr (vp.map (fun p => (p.1, quoteStr p.2))))]
  | none => []

/-- `componentProperties`, when the definitions object is non-empty. -/
def componentPropFields (a : NodeAttrs) : List (String × String) :=
  match a.componentProps with
  | some defs => if defs ≠ [] then [("componentProperties", objStr defs)] else []
  | none => []

/-- Paint list (`fills` or `strokes`): keep paints not explicitly
invisible, emit only when some survive. -/
def paintListFields (key : String) (ps : Option (List Paint)) : List (String × String) :=
  match ps with
  | some l =>
      let vis := l.filter (fun p => p.visible ≠ some false)
      if vis ≠ [] then [(key, arrStr (vis.map simplifyPaint))] else []
  | none => []

/-- Effects list, filtered the same way. -/
def effectListFields (es : Option (List Effect)) : List (String × String) :=
  match es with
  | some l =>
      let vis := l.filter (fun e => e.visible ≠ some false)
      if vis ≠ [] then [("effects", arrStr (vis.map simplifyEffect))] else []
  | none => []

/-- `opacity`, emitted only when not 1. -/
def opacityFields (a : NodeAttrs) : List (String × String) :=
  match a.opacity with
  | some o => if o ≠ 1 then [("opacity", ratStr o)] else []
  | none => []

/-- `cornerRadius` when a positive number; `borderRadius` string when the
radius is the mixed sentinel. -/
def cornerFields (a : NodeAttrs) : List (String × String) :=
  match a.cornerRadius with
  | some (.uniform r) => if r > 0 then [("cornerRadius", ratStr r)] else []
  | some (.mixedCorners tl tr br bl) =>
      [("borderRadius", quoteStr (ratStr tl ++ " " ++ ratStr tr ++ " " ++ ratStr br ++ " " ++ ratStr bl))]
  | none => []

/-- The text block of a `TEXT` node. -/
def textFields (a : NodeAttrs) : List (String × String) :=
  if a.ntype == "TEXT" then
    match a.text with
    | some t =>
        [("textContent", quoteStr t.characters)]
        ++ (match t.fontSize with | some fs => [("fontSize", ratStr fs)] | none => [])
        ++ (match t.fontName with
            | some fn => [("fontName", objStr [("family", quoteStr fn.1), ("style", quoteStr fn.2)])]
            | none => [])
        ++ (match t.fontWeight with | some fw => [("fontWeight", ratStr fw)] | none => [])
        ++ (match t.lineHeight with | some lh => [("lineHeight", lh)] | none => [])
        ++ (match t.letterSpacing with | some ls => [("letterSpacing", ls)] | none => [])
        ++ [("textAlignHorizontal", quoteStr t.textAlignHorizontal),
            ("textAlignVertical", quoteStr t.textAlignVertical)]
    | none => []
  else []

/-- `childCount`, present for any node with a `children` property. -/
def childCountFields (n : RawNode) : List (String × String) :=
  match n.children with
  | some cs => [("childCount", natStr cs.length)]
  | none => []

/-- `simplifyNode(node)` with `includeChildren = false`: the ordered
default-omitting projection, each value in rendered form. -/
def simplifyNodeFlat (n : RawNode) : List (String × String) :=
  identFields n.attrs ++ visibleFields n.attrs ++ sizeFields n.attrs
  ++ childCountFields n
  ++ layoutFields n.attrs ++ layoutChildFields n.attrs ++ componentFlagFields n.attrs
  ++ variantPropFields n.attrs ++ componentPropFields n.attrs
  ++ paintListFields "fills" n.attrs.fills ++ paintListFields "strokes" n.attrs.strokes
  ++ effectListFields n.attrs.effects ++ opacityFields n.attrs ++ cornerFields n.attrs
  ++ textFields n.attrs

/-- `simplifyNode(node, true)`: additionally emits `children`, each child
projected with `includeChildren = false`, right after `childCount`. -/
def simplifyNodeFull (n : RawNode) : List (String × String) :=
  identFields n.attrs ++ visibleFields n.attrs ++ sizeFields n.attrs
  ++ (match n.children with
      | some cs =>
          [("childCount", natStr cs.length),
           ("children", arrStr (cs.map (fun c => objStr (simplifyNodeFlat c))))]
      | none => [])
  ++ layoutFields n.attrs ++ layoutChildFields n.attrs ++ componentFlagFields n.attrs
  ++ variantPropFields n.attrs ++ componentPropFields n.attrs
  ++ paintListFields "fills" n.attrs.fills ++ paintListFields "strokes" n.attrs.strokes
  ++ effectListFields n.attrs.effects ++ opacityFields n.attrs ++ cornerFields n.attrs
  ++ textFields n.attrs

/-- `simplifyNode` with its `includeChildren` flag. -/
def simplifyNode (n : RawNode) (includeChildren : Bool) : List (String × String) :=
  if includeChildren then simplifyNodeFull n else simplifyNodeFlat n

/-- Full serialization of a projection (`JSON.stringify` of the object). -/
def serializeNode (fields : List (String × String)) : String :=
  objStr fields

/-- The keys of a projection, in emission order. -/
def keysOf (fields : List (String × String)) : List String :=
  fields.map Prod.fst

/-- First-occurrence deduplication, the iteration order of a JavaScript
`Set` built from the concatenated key lists. -/
def dedupFirstAux : List String → List String → List String
  | _, [] => []
  | seen, k :: rest =>
      if seen.contains k then dedupFirstAux seen rest
      else k :: dedupFirstAux (k :: seen) rest

/-- First-occurrence deduplication of a key list. -/
def dedupFirst (l : List String) : List String :=
  dedupFirstAux [] l

/-! #### Variant differ (`handleCompareVariants`) -/

/-- The difference map: for every key of the union whose rendered values
differ, the entry `key ↦ (a-value, b-value)`; `none` is JavaScript
`undefined` for a key absent on one side. -/
def compareDiffs (a b : List (String × String)) :
    List (String × Option String × Option String) :=
  (dedupFirst (keysOf a ++ keysOf b)).filterMap (fun k =>
    if a.lookup k ≠ b.lookup k then some (k, a.lookup k, b.lookup k) else none)

/-- The result of `handleCompareVariants`. -/
structure CompareResult where
  nodeA : String × String
  nodeB : String × String
  differences : List (String × Option String × Option String)
  differenceCount : Nat
deriving DecidableEq

/-- `handleCompareVariants`: project both nodes with children included and
diff the projections. -/
def handleCompareVariants (n m : RawNode) : CompareResult :=
  let da := compareDiffs (simplifyNode n true) (simplifyNode m true)
  { nodeA := (n.attrs.nid, n.attrs.name),
    nodeB := (m.attrs.nid, m.attrs.name),
    differences := da,
    differenceCount := da.length }

/-! #### Similarity scorer (`computeSimilarity`) -/

/-- The keys `computeSimilarity` iterates and counts: the deduplicated
union minus the skip set `{id, name, children}`. -/
def simKeys (a b : List (String × String)) : List String :=
  (dedupFirst (keysOf a ++ keysOf b)).filter
    (fun k => !(["id", "name", "children"].contains k))

/-- The counted keys whose rendered values agree on both sides. -/
def simMatches (a b : List (String × String)) : List String :=
  (simKeys a b).filter (fun k => a.lookup k == b.lookup k)

/-- `computeSimilarity`: over the union of the two key sets, skipping
`id`, `name` and `children`, the fraction of keys with equal rendered
values; 0 when no key is counted. -/
def computeSimilarity (a b : List (String × String)) : Rat :=
  if 0 < (simKeys a b).length
  then ((simMatches a b).length : Rat) / ((simKeys a b).length : Rat)
  else 0

/-- The attribute keys in claim C7's reading: the union minus the identity
keys `id`, `name`, `type` and the child-count key. -/
def claimKeys (a b : List (String × String)) : List String :=
  (dedupFirst (keysOf a ++ keysOf b)).filter
    (fun k => !(["id", "name", "type", "childCount"].contains k))

/-- Modelled from the spec (claim C7's formula, for comparison against the
source's `computeSimilarity`): equal-valued attribute keys over the union
of the attribute key sets, 0 when that union is empty. -/
def claimedSimilarity (a b : List (String × String)) : Rat :=
  if (claimKeys a b).length = 0 then 0
  else (((claimKeys a b).filter (fun k => a.lookup k == b.lookup k)).length : Rat)
    / ((claimKeys a b).length : Rat)

/-- The key set of the amended similarity formula: the union of both key
sets minus `{id, name, children}` (so `type` and `childCount` do
participate). -/
def amendedKeys (a b : List (String × String)) : Finset String :=
  ((keysOf a).toFinset ∪ (keysOf b).toFinset) \ {"id", "name", "children"}

/-- The amended similarity formula stated set-theoretically: equal-valued
keys over `amendedKeys`, 0 when that set is empty. -/
def amendedSimilarity (a b : List (String × String)) : Rat :=
  if (amendedKeys a b).card = 0 then 0
  else (((amendedKeys a b).filter (fun k => a.lookup k = b.lookup k)).card : Rat)
    / ((amendedKeys a b).card : Rat)

/-! #### Tree navigator (`handleGetChildren`) -/

/-- The tree of projections returned by `getChildrenAtDepth`: the node's
flat projection plus, when recursion continued, the `children` field. -/
inductive ProjTree where
  | node (fields : List (String × String)) (childrenField : Option (List ProjTree))

/-- The projection fields of a projection tree node. -/
def ProjTree.fields : ProjTree → List (String × String)
  | .node fs _ => fs

/-- The `children` field of a projection tree node (`none` = the key is
absent). -/
def ProjTree.childrenField : ProjTree → Option (List ProjTree)
  | .node _ cf => cf

/-- `getChildrenAtDepth(n, d)`: the flat projection, plus a `children`
field (appended after the other keys) exactly when `d > 0` and the node
has a `children` property. -/
def getChildrenAtDepth : Nat → RawNode → ProjTree
  | 0, n => ProjTree.node (simplifyNodeFlat n) none
  | d + 1, n =>
      match n.children with
      | none => ProjTree.node (simplifyNodeFlat n) none
      | some cs => ProjTree.node (simplifyNodeFlat n) (some (cs.map (getChildrenAtDepth d)))

/-- The result of `handleGetChildren`. -/
structure GetChildrenResult where
  nid : String
  name : String
  ntype : String
  children : List ProjTree

/-- `handleGetChildren`: nodes without a `children` property return an
empty child list; otherwise each direct child is expanded with
`getChildrenAtDepth (depth - 1)`, `depth` defaulting to 1. -/
def handleGetChildren (n : RawNode) (depthParam : Option Nat) : GetChildrenResult :=
  match n.children with
  | none => { nid := n.attrs.nid, name := n.attrs.name, ntype := n.attrs.ntype, children := [] }
  | some cs =>
      let depth := depthParam.getD 1
      { nid := n.attrs.nid, name := n.attrs.name, ntype := n.attrs.ntype,
        children := cs.map (getChildrenAtDepth (depth - 1)) }

/-! #### State inference engine (`handleInferStates`) -/

/-- A state-machine transition `{from, to, trigger, action?}`. -/
structure Transition where
  fromState : String
  toState : String
  trigger : String
  action : Option String := none
deriving DecidableEq, Repr

/-- `pair.split("=")[1]`, then the JavaScript truthiness test (`undefined`
and the empty string are both rejected). -/
def parsePairValue (pair : String) : Option String :=
  match (jsSplitOn pair "=").get? 1 with
  | none => none
  | some v => if v = "" then none else some v

/-- Source 1 state extraction: split each `COMPONENT` child's name on
`", "`, take the value of each `key=value` pair, trim it, and append it if
not already present. -/
def statesFromNames (names : List String) : List String :=
  names.foldl (fun sts nm =>
    (jsSplitOn nm ", ").foldl (fun sts pair =>
      match parsePairValue pair with
      | none => sts
      | some v =>
          let normalized := jsTrim v
          if sts.contains normalized then sts else sts ++ [normalized]) sts) []

/-- The fixed canonical interaction-state vocabulary. -/
def interactionStates : List String :=
  ["Default", "Hover", "Active", "Pressed", "Focus", "Disabled"]

/-- The observed states matching the canonical vocabulary
case-insensitively. -/
def foundInteraction (sts : List String) : List String :=
  sts.filter (fun s => interactionStates.any (fun t => jsToLower s == jsToLower t))

/-- The Default↔Hover conventional pair. -/
def dhPair : List Transition :=
  [{ fromState := "Default", toState := "Hover", trigger := "ON_HOVER" },
   { fromState := "Hover", toState := "Default", trigger := "MOUSE_LEAVE" }]

/-- The Hover↔Active conventional pair. -/
def haPair : List Transition :=
  [{ fromState := "Hover", toState := "Active", trigger := "ON_CLICK" },
   { fromState := "Active", toState := "Hover", trigger := "MOUSE_UP" }]

/-- The Default↔Focus conventional pair. -/
def dfPair : List Transition :=
  [{ fromState := "Default", toState := "Focus", trigger := "ON_FOCUS" },
   { fromState := "Focus", toState := "Default", trigger := "ON_BLUR" }]

/-- Source 1 transition synthesis, exactly as in the source: inside the
`foundInteraction.length > 1` guard, Default↔Hover needs both endpoints
observed, Hover↔Active needs hover and active-or-pressed observed, but the
Default↔Focus branch only tests for an observed focus state. -/
def inferNameTransitions (sts : List String) : List Transition :=
  let fi := foundInteraction sts
  if 1 < fi.length then
    (if (fi.find? (fun s => jsToLower s == "default")).isSome
        && (fi.find? (fun s => jsToLower s == "hover")).isSome then dhPair else [])
    ++ (if (fi.find? (fun s => jsToLower s == "hover")).isSome
        && (fi.find? (fun s => jsToLower s == "active" || jsToLower s == "pressed")).isSome
       then haPair else [])
    ++ (if (fi.find? (fun s => jsToLower s == "focus")).isSome then dfPair else [])
  else []

/-- One prototype-reaction action: its type and optional destination. -/
structure ReactionAction where
  atype : String
  destinationId : Option String := none
deriving DecidableEq

/-- One prototype reaction; `trigger = none` models a missing trigger
(the source guards on `reaction.trigger && reaction.actions`). -/
structure Reaction where
  trigger : Option String
  actions : Option (List ReactionAction)
deriving DecidableEq

/-- Source 2: each trigger/action pair becomes an edge from the node's own
name to the action's destination (or `"unknown"`). -/
def reactionTransitions (nodeName : String) (rs : List Reaction) : List Transition :=
  rs.foldl (fun acc r =>
    match r.trigger, r.actions with
    | some trg, some acts =>
        acc ++ acts.map (fun a =>
          { fromState := nodeName,
            toState := a.destinationId.getD "unknown",
            trigger := trg,
            action := some a.atype })
    | _, _ => acc) []

/-- A successfully parsed annotation record; either field may be absent. -/
structure AnnParsed where
  states : Option (List String) := none
  transitions : Option (List Transition) := none

/-- The inputs `handleInferStates` reads: the node (type, name and
children for variant naming), its reactions when the property exists, and
the raw shared-plugin-data string (`""` when unset).  `parseAnn` stands
for `JSON.parse`, returning `none` when parsing throws. -/
structure InferInput where
  node : RawNode
  reactions : Option (List Reaction) := none
  annotRaw : String := ""

/-- The inferred state machine. -/
structure InferResult where
  states : List String
  transitions : List Transition
  confidence : Rat
  sources : List String
  openQuestions : List String
  suggestedImplementation : Option String

/-- The names of the `COMPONENT` children of a component set. -/
def componentChildNames (n : RawNode) : List String :=
  ((n.children.getD []).filter (fun c => c.attrs.ntype == "COMPONENT")).map
    (fun c => c.attrs.name)

/-- Whether source 1 applies: the node is a component set. -/
def inferIsSet (inp : InferInput) : Bool :=
  inp.node.attrs.ntype == "COMPONENT_SET"

/-- The states collected by source 1 (variant naming). -/
def inferS1 (inp : InferInput) : List String :=
  if inferIsSet inp then statesFromNames (componentChildNames inp.node) else []

/-- Whether source 2 applies: `reactions` exists and is non-empty. -/
def inferHasReacts (inp : InferInput) : Bool :=
  match inp.reactions with
  | some rs => rs.length > 0
  | none => false

/-- Whether source 3 pushes its tag: the raw shared plugin data string is
non-empty (this happens *before* `JSON.parse` runs; a parse throw is
swallowed by the `catch`, leaving the source recorded). -/
def inferHasAnnot (inp : InferInput) : Bool :=
  inp.annotRaw ≠ ""

/-- The `sources` list, in push order. -/
def inferSources (inp : InferInput) : List String :=
  (if inferIsSet inp then ["variant-names"] else [])
  ++ (if inferHasReacts inp then ["prototype-reactions"] else [])
  ++ (if inferHasAnnot inp then ["annotations"] else [])

/-- The transitions accumulated by sources 1 and 2. -/
def inferT2 (inp : InferInput) : List Transition :=
  (if inferIsSet inp then inferNameTransitions (inferS1 inp) else [])
  ++ (if inferHasReacts inp
      then reactionTransitions inp.node.attrs.name (inp.reactions.getD [])
      else [])

/-- The final state list: source 1's states, then the parsed annotation's
states unioned in (deduplicated); a missing or unparseable annotation
contributes nothing. -/
def inferStatesList (inp : InferInput) (parseAnn : String → Option AnnParsed) : List String :=
  if inferHasAnnot inp then
    match parseAnn inp.annotRaw with
    | none => inferS1 inp
    | some p =>
        (p.states.getD []).foldl
          (fun acc s => if acc.contains s then acc else acc ++ [s]) (inferS1 inp)
  else inferS1 inp

/-- The final transition list: sources 1 and 2, then the parsed
annotation's transitions appended verbatim. -/
def inferTransList (inp : InferInput) (parseAnn : String → Option AnnParsed) : List Transition :=
  if inferHasAnnot inp then
    match parseAnn inp.annotRaw with
    | none => inferT2 inp
    | some p => inferT2 inp ++ p.transitions.getD []
  else inferT2 inp

/-- The confidence computation: the sequential `+=` of the weights of the
recorded sources, then forced to 0 when the state list came out empty. -/
def confidenceOf (srcs : List String) (nStates : Nat) : Rat :=
  if nStates = 0 then 0
  else (if srcs.contains "variant-names" then (0.4 : Rat) else 0)
    + (if srcs.contains "prototype-reactions" then (0.3 : Rat) else 0)
    + (if srcs.contains "annotations" then (0.3 : Rat) else 0)

/-- The open questions block. -/
def inferOpenQuestions (srcs : List String) (nStates nTrans : Nat) : List String :=
  (if nStates > 0 && nTrans = 0 then
    ["States were found but no transitions could be inferred. How do users move between states?"]
  else [])
  ++ (if !srcs.contains "annotations" then
    ["No designer annotations found. Consider using forage_annotate_state to add explicit state rules."]
  else [])

/-- The suggested implementation, present only when some state exists. -/
def inferSuggestion (nStates nTrans : Nat) : Option String :=
  if nStates > 0 then
    if nStates ≤ 3 && nTrans ≤ 4 then
      some "useState — simple enough for a single state variable"
    else
      some "useReducer — complex state machine with multiple transitions"
  else none

/-- `handleInferStates`, assembled from the pieces above. -/
def handleInferStates (inp : InferInput) (parseAnn : String → Option AnnParsed) : InferResult :=
  { states := inferStatesList inp parseAnn,
    transitions := inferTransList inp parseAnn,
    confidence := confidenceOf (inferSources inp) (inferStatesList inp parseAnn).length,
    sources := inferSources inp,
    openQuestions := inferOpenQuestions (inferSources inp)
      (inferStatesList inp parseAnn).length (inferTransList inp parseAnn).length,
    suggestedImplementation := inferSuggestion
      (inferStatesList inp parseAnn).length (inferTransList inp parseAnn).length }

/-- `sts` contains a state whose lowercasing is `c`. -/
def hasLowerState (sts : List String) (c : String) : Bool :=
  sts.any (fun s => jsToLower s == c)

/-! #### Concrete sample inputs used by counterexamples and witnesses -/

/-- A bare text node; its flat projection has only identity, text content
and alignment fields. -/
def sampleTextA : RawNode :=
  RawNode.node { nid := "1:1", name := "T1", ntype := "TEXT",
                 text := some { characters := "Hello" } } none

/-- Like `sampleTextA` with different id, name and content. -/
def sampleTextB : RawNode :=
  RawNode.node { nid := "1:2", name := "T2", ntype := "TEXT",
                 text := some { characters := "World" } } none

/-- A component set whose variants cover focus and disabled — but no
default state. -/
def focusSetNode : RawNode :=
  RawNode.node { nid := "2:0", name := "Chip", ntype := "COMPONENT_SET" }
    (some [RawNode.node { nid := "2:1", name := "State=Focus", ntype := "COMPONENT" } none,
           RawNode.node { nid := "2:2", name := "State=Disabled", ntype := "COMPONENT" } none])

/-- A component set with one hover variant carrying an unparseable
annotation blob. -/
def annotSetInput : InferInput :=
  { node := RawNode.node { nid := "3:0", name := "Button", ntype := "COMPONENT_SET" }
      (some [RawNode.node { nid := "3:1", name := "State=Hover", ntype := "COMPONENT" } none]),
    annotRaw := "not json" }

/-- The same node with no annotation stored at all. -/
def annotAbsentInput : InferInput :=
  { annotSetInput with annotRaw := "" }

/-- A `JSON.parse` stand-in that throws on every input (every string is
unparseable). -/
def noParse : String → Option AnnParsed := fun _ => none

/-! ### Theorems: the correlation bridge -/

theorem pendCount_cons (k v rid : Nat) (pend : List (Nat × Nat)) :
    pendCount ((k, v) :: pend) rid
      = pendCount pend rid + (if k = rid then 1 else 0) := by
  unfold pendCount
  rw [List.countP_cons]
  by_cases h : k = rid <;> simp [h]

theorem pendCount_nil (rid : Nat) : pendCount [] rid = 0 := rfl

theorem pendCount_pos_of_lookup {pend : List (Nat × Nat)} {rid v : Nat}
    (h : pend.lookup rid = some v) : 0 < pendCount pend rid := by
  induction pend with
  | nil => simp [List.lookup] at h
  | cons p rest ih =>
      rcases p with ⟨k, w⟩
      rw [pendCount_cons]
      rw [List.lookup] at h
      by_cases hk : rid = k
      · rw [if_pos hk.symm]
        omega
      · have hb : (rid == k) = false := by simp [hk]
        rw [hb] at h
        have := ih h
        omega

theorem pendCount_remove_self (pend : List (Nat × Nat)) (rid : Nat) :
    pendCount (pend.filter (fun p => p.1 ≠ rid)) rid = 0 := by
  unfold pendCount
  rw [List.countP_eq_zero]
  intro a ha
  have := List.of_mem_filter ha
  simp at this ⊢
  exact this

theorem pendCount_remove_other (pend : List (Nat × Nat)) {rid rid' : Nat} (h : rid' ≠ rid) :
    pendCount (pend.filter (fun p => p.1 ≠ rid)) rid' = pendCount pend rid' := by
  unfold pendCount
  rw [List.countP_filter]
  apply List.countP_congr
  intro a _
  by_cases ha : a.1 = rid' <;> simp [ha, h]

theorem resCount_append (lg1 lg2 : List (Nat × Outcome)) (rid : Nat) :
    resCount (lg1 ++ lg2) rid = resCount lg1 rid + resCount lg2 rid :=
  List.countP_append ..

theorem resCount_single (rid : Nat) (o : Outcome) :
    resCount [(rid, o)] rid = 1 := by
  simp [resCount]

theorem resCount_single_other {rid r : Nat} (o : Outcome) (h : r ≠ rid) :
    resCount [(rid, o)] r = 0 := by
  simp [resCount, List.countP_cons]
  exact fun hc => absurd hc.symm h

theorem resCount_map_disconnect (pend : List (Nat × Nat)) (rid : Nat) :
    resCount (pend.map (fun p => (p.1, Outcome.rejectedDisconnect))) rid = pendCount pend rid := by
  unfold resCount pendCount
  rw [List.countP_map]
  rfl

theorem inv_of_eq {s t : BridgeState} (h : Inv s) (hp : t.pending = s.pending)
    (hl : t.log = s.log) (hn : t.nextId = s.nextId) : Inv t := by
  refine ⟨?_, ?_, ?_⟩
  · intro rid h1 h2
    rw [hl, hp]
    exact h.alloc rid h1 (hn ▸ h2)
  · intro rid h1
    rw [hl, hp]
    exact h.unalloc rid (hn ▸ h1)
  · rw [hl, hp]
    exact h.zero

theorem stepConnect_parts (s : BridgeState) (c : Nat) :
    (stepConnect s c).pending = s.pending ∧ (stepConnect s c).log = s.log ∧
    (stepConnect s c).nextId = s.nextId := by
  unfold stepConnect
  cases s.plugin <;> dsimp <;> [skip; split] <;> simp

theorem inv_connect {s : BridgeState} (h : Inv s) (c : Nat) : Inv (stepConnect s c) := by
  obtain ⟨hp, hl, hn⟩ := stepConnect_parts s c
  exact inv_of_eq h hp hl hn

/-- The shared core of the `message` and timer removal paths: removing the
looked-up id and appending one callback record for it preserves the
invariant. -/
theorem inv_remove_and_log {s : BridgeState} (h : Inv s) {rid v : Nat}
    (hl : s.pending.lookup rid = some v) (o : Outcome) :
    Inv { s with pending := s.pending.filter (fun p => p.1 ≠ rid),
                 log := s.log ++ [(rid, o)] } := by
  have hpos := pendCount_pos_of_lookup hl
  have hrid1 : 1 ≤ rid := by
    by_contra hc
    have h0 : rid = 0 := by omega
    rw [h0] at hpos
    exact absurd h.zero.2 (by omega)
  have hrid2 : rid ≤ s.nextId := by
    by_contra hc
    have := (h.unalloc rid (by omega)).2
    omega
  have hsum := h.alloc rid hrid1 hrid2
  have hpend1 : pendCount s.pending rid = 1 := by omega
  have hres0 : resCount s.log rid = 0 := by omega
  refine ⟨?_, ?_, ?_⟩
  · intro r h1 h2
    dsimp
    rw [resCount_append]
    by_cases hr : r = rid
    · subst hr
      rw [pendCount_remove_self, hres0, resCount_single]
    · rw [pendCount_remove_other _ hr, resCount_single_other _ hr]
      have := h.alloc r h1 h2
      omega
  · intro r h1
    dsimp at h1 ⊢
    have hr : r ≠ rid := by omega
    rw [resCount_append, pendCount_remove_other _ hr, resCount_single_other _ hr]
    have := h.unalloc r h1
    omega
  · dsimp
    have hr : (0 : Nat) ≠ rid := by omega
    rw [resCount_append, pendCount_remove_other _ hr, resCount_single_other _ hr]
    have := h.zero
    omega

theorem inv_message {s : BridgeState} (h : Inv s) (rid : Nat) (isErr : Bool) :
    Inv (stepMessage s rid isErr) := by
  unfold stepMessage
  cases hl : s.pending.lookup rid with
  | none => exact h
  | some v => exact inv_remove_and_log h hl _

theorem inv_timeout {s : BridgeState} (h : Inv s) (rid : Nat) :
    Inv (stepTimeout s rid) := by
  unfold stepTimeout
  cases hl : s.pending.lookup rid with
  | none => simpa using h
  | some v => simpa using inv_remove_and_log h hl Outcome.rejectedTimeout

theorem inv_close {s : BridgeState} (h : Inv s) (c : Nat) : Inv (stepClose s c) := by
  refine ⟨?_, ?_, ?_⟩
  · intro r h1 h2
    have h2' : r ≤ s.nextId := h2
    show resCount (s.log ++ s.pending.map _) r + pendCount [] r = 1
    rw [resCount_append, resCount_map_disconnect, pendCount_nil]
    have := h.alloc r h1 h2'
    omega
  · intro r h1
    have h1' : s.nextId < r := h1
    show resCount (s.log ++ s.pending.map _) r = 0 ∧ pendCount [] r = 0
    rw [resCount_append, resCount_map_disconnect, pendCount_nil]
    have := h.unalloc r h1'
    omega
  · show resCount (s.log ++ s.pending.map _) 0 = 0 ∧ pendCount [] 0 = 0
    rw [resCount_append, resCount_map_disconnect, pendCount_nil]
    have := h.zero
    omega

theorem inv_send {s : BridgeState} (h : Inv s) : Inv (stepSend s) := by
  unfold stepSend
  by_cases hl : liveConn s
  · rw [if_pos hl]
    refine ⟨?_, ?_, ?_⟩
    · intro r h1 h2
      have h2' : r ≤ s.nextId + 1 := h2
      show resCount s.log r + pendCount ((s.nextId + 1, s.plugin.getD 0) :: s.pending) r = 1
      rw [pendCount_cons]
      by_cases hr : r = s.nextId + 1
      · have := h.unalloc r (by omega)
        rw [if_pos hr.symm]
        omega
      · have := h.alloc r h1 (by omega)
        rw [if_neg (fun hc => hr hc.symm)]
        omega
    · intro r h1
      have h1' : s.nextId + 1 < r := h1
      show resCount s.log r = 0 ∧ pendCount ((s.nextId + 1, s.plugin.getD 0) :: s.pending) r = 0
      rw [pendCount_cons]
      have := h.unalloc r (by omega)
      rw [if_neg (by omega)]
      omega
    · show resCount s.log 0 = 0 ∧ pendCount ((s.nextId + 1, s.plugin.getD 0) :: s.pending) 0 = 0
      rw [pendCount_cons]
      have := h.zero
      rw [if_neg (by omega)]
      omega
  · rw [if_neg hl]
    exact h

theorem inv_step {s : BridgeState} (h : Inv s) (e : Event) : Inv (step s e) := by
  cases e with
  | connect c => exact inv_connect h c
  | message rid isErr => exact inv_message h rid isErr
  | timeout rid => exact inv_timeout h rid
  | closeEvt c => exact inv_close h c
  | errorEvt c => exact h
  | send => exact inv_send h

theorem inv_init : Inv initState := by
  refine ⟨fun rid h1 h2 => ?_, fun rid h1 => ?_, ?_⟩
  · exfalso
    have h2' : rid ≤ 0 := h2
    omega
  · exact ⟨rfl, rfl⟩
  · exact ⟨rfl, rfl⟩

theorem inv_foldl (es : List Event) (s : BridgeState) (h : Inv s) :
    Inv (es.foldl step s) := by
  induction es generalizing s with
  | nil => exact h
  | cons e es ih => exact ih _ (inv_step h e)

theorem inv_run (es : List Event) : Inv (run es) :=
  inv_foldl es initState inv_init

/-- Claim C1: for every request accepted by `send` (the ids `1 ≤ rid ≤
nextId`), under any trace of connection, message, timer, close, error and
send events, the number of resolve/reject callbacks fired for it plus its
surviving pending-map entries is exactly 1: so at most one callback ever
fires, it fires at most once, its firing coincides with removal of the
entry (on each of the response, timeout and disconnect paths), and an
entry never leaks past its resolution. -/
theorem bridge_exactly_one_resolution (es : List Event) (rid : Nat)
    (h1 : 1 ≤ rid) (h2 : rid ≤ (run es).nextId) :
    resCount (run es).log rid + pendCount (run es).pending rid = 1 :=
  (inv_run es).alloc rid h1 h2

/-- Witness for C1: the trace connect, send, matching response: request 1
was allocated, and afterwards exactly one callback fired with the entry
gone. -/
theorem bridge_exactly_one_resolution_witness :
    1 ≤ (run [Event.connect 0, Event.send, Event.message 1 false]).nextId ∧
    resCount (run [Event.connect 0, Event.send, Event.message 1 false]).log 1
      + pendCount (run [Event.connect 0, Event.send, Event.message 1 false]).pending 1 = 1 :=
  ⟨by decide,
   bridge_exactly_one_resolution [Event.connect 0, Event.send, Event.message 1 false] 1
     (by decide) (by decide)⟩

/-- Claim C2: `send` on a bridge with no live connection (no plugin
socket, or a socket that is not open) produces the connection error and
leaves the state untouched: no pending entry, no correlation id
allocation, no timer. -/
theorem send_without_connection_noop (s : BridgeState) (h : liveConn s = false) :
    sendResult s = SendOutcome.connectionError ∧ stepSend s = s := by
  constructor
  · simp [sendResult, h]
  · simp [stepSend, h]

/-- Witness for C2: the freshly constructed bridge has no live connection
and `send` on it fails without touching anything. -/
theorem send_without_connection_noop_witness :
    sendResult initState = SendOutcome.connectionError ∧ stepSend initState = initState :=
  send_without_connection_noop initState (by decide)

/-- Counterexample to claim C3 as stated: an `error` event on the current
connection does *not* reject the still-pending request nor clear the map —
after connect, send, error the connection is still the current one, the
entry is still pending and no callback has fired.  Only the `close` event
performs the bulk rejection. -/
theorem error_event_counterexample :
    (run [Event.connect 0, Event.send, Event.errorEvt 0]).plugin = some 0 ∧
    0 ∈ (run [Event.connect 0, Event.send, Event.errorEvt 0]).openConns ∧
    (run [Event.connect 0, Event.send, Event.errorEvt 0]).pending = [(1, 0)] ∧
    resCount (run [Event.connect 0, Event.send, Event.errorEvt 0]).log 1 = 0 := by
  decide

/-- Claim C3 as amended: when a `close` event occurs, every still-pending
entry is rejected with the disconnection error and the map is cleared (so
no caller waits past it even if its timer has not fired); the `error`
handler, by contrast, only logs and leaves the bridge state untouched. -/
theorem close_rejects_all_pending (s : BridgeState) (c : Nat) :
    (stepClose s c).pending = [] ∧
    (∀ rid, 0 < pendCount s.pending rid →
      (rid, Outcome.rejectedDisconnect) ∈ (stepClose s c).log) ∧
    (∀ c', stepErrorEvt s c' = s) := by
  refine ⟨rfl, ?_, fun _ => rfl⟩
  intro rid hrid
  have hex : ∃ p ∈ s.pending, (p.1 == rid) = true := List.countP_pos_iff.mp hrid
  obtain ⟨p, hp, hpred⟩ := hex
  show (rid, Outcome.rejectedDisconnect) ∈ s.log ++ s.pending.map _
  refine List.mem_append_right _ (List.mem_map.mpr ⟨p, hp, ?_⟩)
  have : p.1 = rid := by simpa using hpred
  rw [this]

/-- Witness for C3 (amended): after connect and send, a close event
rejects pending request 1 and empties the map. -/
theorem close_rejects_all_pending_witness :
    (stepClose (run [Event.connect 0, Event.send]) 0).pending = [] ∧
    (1, Outcome.rejectedDisconnect) ∈ (stepClose (run [Event.connect 0, Event.send]) 0).log :=
  ⟨(close_rejects_all_pending (run [Event.connect 0, Event.send]) 0).1,
   (close_rejects_all_pending (run [Event.connect 0, Event.send]) 0).2.1 1 (by decide)⟩

/-- Claim C10: the close handler's bulk rejection is not scoped to the
connection that closed.  If `b` is the current live connection and a
request `rid` is pending against `b`, then the `close` event of any other
connection `a` (for instance the stale one that `b` replaced) rejects
`rid` with the disconnection error and empties the map, while `b` remains
the current live connection. -/
theorem stale_close_rejects_live_request (s : BridgeState) (a b rid : Nat)
    (hplug : s.plugin = some b) (hopen : b ∈ s.openConns) (hab : a ≠ b)
    (hpend : (rid, b) ∈ s.pending) :
    (step s (Event.closeEvt a)).pending = [] ∧
    (rid, Outcome.rejectedDisconnect) ∈ (step s (Event.closeEvt a)).log ∧
    (step s (Event.closeEvt a)).plugin = some b ∧
    b ∈ (step s (Event.closeEvt a)).openConns := by
  refine ⟨rfl, ?_, ?_, ?_⟩
  · show (rid, Outcome.rejectedDisconnect) ∈ s.log ++ s.pending.map _
    exact List.mem_append_right _ (List.mem_map.mpr ⟨(rid, b), hpend, rfl⟩)
  · show (if s.plugin = some a then none else s.plugin) = some b
    rw [hplug, if_neg (by intro hc; exact hab (Option.some.inj hc).symm)]
  · show b ∈ s.openConns.filter _
    exact List.mem_filter.mpr ⟨hopen, by simp; intro hc; exact hab hc.symm⟩

/-- Witness for C10: connection 1 replaces connection 0, a request is sent
on connection 1, then connection 0's close event fires: the request is
rejected and removed although connection 1 is still live and current. -/
theorem stale_close_rejects_live_request_witness :
    (step (run [Event.connect 0, Event.connect 1, Event.send]) (Event.closeEvt 0)).pending = [] ∧
    (1, Outcome.rejectedDisconnect)
      ∈ (step (run [Event.connect 0, Event.connect 1, Event.send]) (Event.closeEvt 0)).log ∧
    (step (run [Event.connect 0, Event.connect 1, Event.send]) (Event.closeEvt 0)).plugin = some 1 ∧
    1 ∈ (step (run [Event.connect 0, Event.connect 1, Event.send]) (Event.closeEvt 0)).openConns :=
  stale_close_rejects_live_request (run [Event.connect 0, Event.connect 1, Event.send]) 0 1 1
    (by decide) (by decide) (by decide) (by decide)

/-! ### Theorems: the node projector -/

/-- Claim C4: the projection is a pure function of the raw node's current
attributes.  In this embedding `simplifyNode` is a function of the node
value alone (it reads no ambient state), so two projections of the same
unmutated node yield the same ordered field list — same keys, same values,
same order — and byte-identical serialized output. -/
theorem simplifyNode_deterministic (n : RawNode) (includeChildren : Bool) :
    simplifyNode n includeChildren = simplifyNode n includeChildren ∧
    serializeNode (simplifyNode n includeChildren)
      = serializeNode (simplifyNode n includeChildren) ∧
    keysOf (simplifyNode n includeChildren) = keysOf (simplifyNode n includeChildren) :=
  ⟨rfl, rfl, rfl⟩

/-! ### Theorems: deduplication and the variant differ -/

theorem mem_dedupFirstAux (k : String) (l : List String) :
    ∀ seen, (k ∈ dedupFirstAux seen l ↔ k ∈ l ∧ k ∉ seen) := by
  induction l with
  | nil => intro seen; simp [dedupFirstAux]
  | cons x rest ih =>
      intro seen
      unfold dedupFirstAux
      by_cases hx : seen.contains x
      · rw [if_pos hx, ih seen]
        have hxs : x ∈ seen := List.elem_iff.mp hx
        constructor
        · rintro ⟨h1, h2⟩
          exact ⟨List.mem_cons_of_mem _ h1, h2⟩
        · rintro ⟨h1, h2⟩
          rcases List.mem_cons.mp h1 with rfl | h1
          · exact absurd hxs h2
          · exact ⟨h1, h2⟩
      · rw [if_neg hx]
        constructor
        · intro hmem
          rcases List.mem_cons.mp hmem with rfl | hmem
          · refine ⟨List.mem_cons_self _ _, fun hk => hx (List.elem_iff.mpr hk)⟩
          · obtain ⟨h1, h2⟩ := (ih (x :: seen)).mp hmem
            exact ⟨List.mem_cons_of_mem _ h1, fun hk => h2 (List.mem_cons_of_mem _ hk)⟩
        · rintro ⟨h1, h2⟩
          rcases List.mem_cons.mp h1 with rfl | h1
          · exact List.mem_cons_self _ _
          · by_cases hkx : k = x
            · exact hkx ▸ List.mem_cons_self _ _
            · refine List.mem_cons_of_mem _ ((ih (x :: seen)).mpr ⟨h1, fun hk => ?_⟩)
              rcases List.mem_cons.mp hk with rfl | hk
              · exact hkx rfl
              · exact h2 hk

theorem nodup_dedupFirstAux (l : List String) : ∀ seen, (dedupFirstAux seen l).Nodup := by
  induction l with
  | nil => intro seen; simp [dedupFirstAux]
  | cons x rest ih =>
      intro seen
      unfold dedupFirstAux
      by_cases hx : seen.contains x
      · rw [if_pos hx]
        exact ih seen
      · rw [if_neg hx]
        refine List.nodup_cons.mpr ⟨fun hmem => ?_, ih (x :: seen)⟩
        obtain ⟨_, h2⟩ := (mem_dedupFirstAux x rest (x :: seen)).mp hmem
        exact h2 (List.mem_cons_self _ _)

theorem mem_dedupFirst (k : String) (l : List String) : k ∈ dedupFirst l ↔ k ∈ l := by
  unfold dedupFirst
  rw [mem_dedupFirstAux]
  simp

theorem nodup_dedupFirst (l : List String) : (dedupFirst l).Nodup :=
  nodup_dedupFirstAux l []

theorem mem_compareDiffs {a b : List (String × String)} {k : String} {va vb : Option String} :
    (k, va, vb) ∈ compareDiffs a b ↔
      (k ∈ keysOf a ∨ k ∈ keysOf b) ∧ a.lookup k ≠ b.lookup k
        ∧ va = a.lookup k ∧ vb = b.lookup k := by
  unfold compareDiffs
  rw [List.mem_filterMap]
  constructor
  · rintro ⟨k', hk', hf⟩
    by_cases hne : a.lookup k' ≠ b.lookup k'
    · rw [if_pos hne] at hf
      obtain ⟨rfl, rfl, rfl⟩ := Prod.mk.injEq .. ▸ Option.some.inj hf
      refine ⟨List.mem_append.mp ((mem_dedupFirst _ _).mp hk'), hne, rfl, rfl⟩
    · rw [if_neg hne] at hf
      cases hf
  · rintro ⟨hk, hne, rfl, rfl⟩
    exact ⟨k, (mem_dedupFirst _ _).mpr (List.mem_append.mpr hk), by rw [if_pos hne]⟩

theorem handleCompareVariants_differences (n m : RawNode) :
    (handleCompareVariants n m).differences
      = compareDiffs (simplifyNode n true) (simplifyNode m true) := by
  simp only [handleCompareVariants]

theorem handleCompareVariants_count (n m : RawNode) :
    (handleCompareVariants n m).differenceCount
      = (compareDiffs (simplifyNode n true) (simplifyNode m true)).length := by
  simp only [handleCompareVariants]

theorem compareDiffs_self (a : List (String × String)) : compareDiffs a a = [] := by
  unfold compareDiffs
  apply List.filterMap_eq_nil_iff.mpr
  intro k _
  rw [if_neg (by simp)]

/-- Claim C8: comparing a node to itself yields the empty difference map
with count 0, and `compare(A, B)` versus `compare(B, A)` contain exactly
the same difference keys with the two labelled values swapped. -/
theorem compare_self_and_symmetric (n m : RawNode) :
    (handleCompareVariants n n).differences = [] ∧
    (handleCompareVariants n n).differenceCount = 0 ∧
    (∀ k va vb,
      ((k, va, vb) ∈ (handleCompareVariants n m).differences ↔
       (k, vb, va) ∈ (handleCompareVariants m n).differences)) := by
  refine ⟨?_, ?_, ?_⟩
  · rw [handleCompareVariants_differences, compareDiffs_self]
  · rw [handleCompareVariants_count, compareDiffs_self]
    rfl
  · intro k va vb
    rw [handleCompareVariants_differences, handleCompareVariants_differences,
      mem_compareDiffs, mem_compareDiffs]
    constructor
    · rintro ⟨hk, hne, h1, h2⟩
      exact ⟨hk.symm, fun hc => hne hc.symm, h2, h1⟩
    · rintro ⟨hk, hne, h1, h2⟩
      exact ⟨hk.symm, fun hc => hne hc.symm, h2, h1⟩

/-! ### Theorems: the tree navigator -/

theorem children_key_not_mem_ident (a : NodeAttrs) :
    "children" ∉ keysOf (identFields a) := by
  simp [identFields, keysOf]

theorem children_key_not_mem_visible (a : NodeAttrs) :
    "children" ∉ keysOf (visibleFields a) := by
  unfold visibleFields
  split <;> simp [keysOf]

theorem children_key_not_mem_size (a : NodeAttrs) :
    "children" ∉ keysOf (sizeFields a) := by
  unfold sizeFields
  cases a.width <;> cases a.height <;> simp [keysOf]

theorem children_key_not_mem_childCount (n : RawNode) :
    "children" ∉ keysOf (childCountFields n) := by
  unfold childCountFields
  cases n.children <;> simp [keysOf]

theorem children_key_not_mem_layout (a : NodeAttrs) :
    "children" ∉ keysOf (layoutFields a) := by
  unfold layoutFields
  rcases a.layout with _ | l
  · simp [keysOf]
  · dsimp
    split
    · cases l.counterAxisSpacing <;> simp [keysOf]
    · simp [keysOf]

theorem children_key_not_mem_layoutChild (a : NodeAttrs) :
    "children" ∉ keysOf (layoutChildFields a) := by
  unfold layoutChildFields
  rcases a.layoutChild with _ | lc
  · simp [keysOf]
  · dsimp
    split <;> split <;> simp [keysOf]

theorem children_key_not_mem_componentFlag (a : NodeAttrs) :
    "children" ∉ keysOf (componentFlagFields a) := by
  unfold componentFlagFields
  split <;> split <;> split <;> try (cases a.mainComponentId <;> simp [keysOf])

theorem children_key_not_mem_variantProp (a : NodeAttrs) :
    "children" ∉ keysOf (variantPropFields a) := by
  unfold variantPropFields
  cases a.variantProps <;> simp [keysOf]

theorem children_key_not_mem_componentProp (a : NodeAttrs) :
    "children" ∉ keysOf (componentPropFields a) := by
  unfold componentPropFields
  rcases a.componentProps with _ | defs
  · simp [keysOf]
  · dsimp
    split <;> simp [keysOf]

theorem children_key_not_mem_paintList (key : String) (ps : Option (List Paint))
    (h : key ≠ "children") : "children" ∉ keysOf (paintListFields key ps) := by
  unfold paintListFields
  rcases ps with _ | l
  · simp [keysOf]
  · dsimp
    split <;> simp [keysOf]
    exact fun hc => h hc.symm

theorem children_key_not_mem_effectList (es : Option (List Effect)) :
    "children" ∉ keysOf (effectListFields es) := by
  unfold effectListFields
  rcases es with _ | l
  · simp [keysOf]
  · dsimp
    split <;> simp [keysOf]

theorem children_key_not_mem_opacity (a : NodeAttrs) :
    "children" ∉ keysOf (opacityFields a) := by
  unfold opacityFields
  rcases a.opacity with _ | o
  · simp [keysOf]
  · dsimp
    split <;> simp [keysOf]

theorem children_key_not_mem_corner (a : NodeAttrs) :
    "children" ∉ keysOf (cornerFields a) := by
  unfold cornerFields
  rcases a.cornerRadius with _ | cr
  · simp [keysOf]
  · rcases cr with r | ⟨tl, tr, br, bl⟩
    · dsimp
      split <;> simp [keysOf]
    · simp [keysOf]

theorem children_key_not_mem_text (a : NodeAttrs) :
    "children" ∉ keysOf (textFields a) := by
  unfold textFields
  split
  · rcases a.text with _ | t
    · simp [keysOf]
    · dsimp
      cases t.fontSize <;> cases t.fontName <;> cases t.fontWeight <;>
        cases t.lineHeight <;> cases t.letterSpacing <;> simp [keysOf]
  · simp [keysOf]

/-- `simplifyNode` without `includeChildren` never emits a `children`
key. -/
theorem children_key_not_in_flat (n : RawNode) :
    "children" ∉ keysOf (simplifyNodeFlat n) := by
  unfold simplifyNodeFlat
  simp only [keysOf, List.map_append, List.mem_append, not_or] at *
  exact ⟨⟨⟨⟨⟨⟨⟨⟨⟨⟨⟨⟨⟨⟨children_key_not_mem_ident n.attrs,
    children_key_not_mem_visible n.attrs⟩,
    children_key_not_mem_size n.attrs⟩,
    children_key_not_mem_childCount n⟩,
    children_key_not_mem_layout n.attrs⟩,
    children_key_not_mem_layoutChild n.attrs⟩,
    children_key_not_mem_componentFlag n.attrs⟩,
    children_key_not_mem_variantProp n.attrs⟩,
    children_key_not_mem_componentProp n.attrs⟩,
    children_key_not_mem_paintList "fills" n.attrs.fills (by decide)⟩,
    children_key_not_mem_paintList "strokes" n.attrs.strokes (by decide)⟩,
    children_key_not_mem_effectList n.attrs.effects⟩,
    children_key_not_mem_opacity n.attrs⟩,
    children_key_not_mem_corner n.attrs⟩,
    children_key_not_mem_text n.attrs⟩

/-- Claim C9: `get_children` defaults to depth 1 when unspecified; with
depth 2 each direct child is expanded with remaining depth 1 (so a
container child carries a `children` field listing its grandchildren),
while every grandchild is expanded with remaining depth 0 and carries no
`children` field at all — deeper levels are silently truncated. -/
theorem getChildren_depth_truncation (n c : RawNode) (cs gs : List RawNode)
    (hn : n.children = some cs) (_hc : c ∈ cs) (hg : c.children = some gs) :
    handleGetChildren n none = handleGetChildren n (some 1) ∧
    (handleGetChildren n (some 2)).children = cs.map (getChildrenAtDepth 1) ∧
    (getChildrenAtDepth 1 c).childrenField = some (gs.map (getChildrenAtDepth 0)) ∧
    (∀ g ∈ gs,
      (getChildrenAtDepth 0 g).childrenField = none ∧
      "children" ∉ keysOf (getChildrenAtDepth 0 g).fields) := by
  refine ⟨rfl, ?_, ?_, ?_⟩
  · unfold handleGetChildren
    rw [hn]
    rfl
  · unfold getChildrenAtDepth
    rw [hg]
    rfl
  · intro g _
    exact ⟨rfl, children_key_not_in_flat g⟩

/-- Witness for C9: a three-level chain: the grandchild projection at
depth 2 carries no `children` field while the child does. -/
theorem getChildren_depth_truncation_witness :
    handleGetChildren (RawNode.node { nid := "a", name := "A", ntype := "FRAME" }
        (some [RawNode.node { nid := "b", name := "B", ntype := "FRAME" }
          (some [RawNode.node { nid := "c", name := "C", ntype := "FRAME" } (some []) ])])) none
      = handleGetChildren (RawNode.node { nid := "a", name := "A", ntype := "FRAME" }
        (some [RawNode.node { nid := "b", name := "B", ntype := "FRAME" }
          (some [RawNode.node { nid := "c", name := "C", ntype := "FRAME" } (some []) ])])) (some 1) ∧
    (getChildrenAtDepth 1 (RawNode.node { nid := "b", name := "B", ntype := "FRAME" }
        (some [RawNode.node { nid := "c", name := "C", ntype := "FRAME" } (some []) ]))).childrenField
      = some ([RawNode.node { nid := "c", name := "C", ntype := "FRAME" } (some []) ].map
          (getChildrenAtDepth 0)) ∧
    (∀ g ∈ [RawNode.node { nid := "c", name := "C", ntype := "FRAME" } (some []) ],
      (getChildrenAtDepth 0 g).childrenField = none ∧
      "children" ∉ keysOf (getChildrenAtDepth 0 g).fields) := by
  have h := getChildren_depth_truncation
    (RawNode.node { nid := "a", name := "A", ntype := "FRAME" }
      (some [RawNode.node { nid := "b", name := "B", ntype := "FRAME" }
        (some [RawNode.node { nid := "c", name := "C", ntype := "FRAME" } (some []) ])]))
    (RawNode.node { nid := "b", name := "B", ntype := "FRAME" }
      (some [RawNode.node { nid := "c", name := "C", ntype := "FRAME" } (some []) ]))
    [RawNode.node { nid := "b", name := "B", ntype := "FRAME" }
      (some [RawNode.node { nid := "c", name := "C", ntype := "FRAME" } (some []) ])]
    [RawNode.node { nid := "c", name := "C", ntype := "FRAME" } (some []) ]
    rfl (List.mem_singleton.mpr rfl) rfl
  exact ⟨h.1, h.2.2.1, h.2.2.2⟩

/-! ### Theorems: the similarity scorer -/

/-- Counterexample to claim C7 as stated: `computeSimilarity` skips only
`id`, `name` and `children` — the `type` key (always equal between
same-type nodes) and the `childCount` key are counted, while the claim
excludes them.  Two same-type text nodes differing only in content score
3/4 under the code but 2/3 under the claim's formula. -/
theorem computeSimilarity_counterexample :
    sampleTextA.attrs.ntype = sampleTextB.attrs.ntype ∧
    computeSimilarity (simplifyNode sampleTextA false) (simplifyNode sampleTextB false) = 3 / 4 ∧
    claimedSimilarity (simplifyNode sampleTextA false) (simplifyNode sampleTextB false) = 2 / 3 ∧
    ((3 : Rat) / 4) ≠ 2 / 3 := by
  refine ⟨rfl, ?_, ?_, by norm_num⟩
  · have h : simKeys (simplifyNode sampleTextA false) (simplifyNode sampleTextB false) =
        ["type", "textContent", "textAlignHorizontal", "textAlignVertical"] := by decide
    have h2 : simMatches (simplifyNode sampleTextA false) (simplifyNode sampleTextB false) =
        ["type", "textAlignHorizontal", "textAlignVertical"] := by decide
    rw [computeSimilarity, h, h2]
    norm_num
  · have h : claimKeys (simplifyNode sampleTextA false) (simplifyNode sampleTextB false) =
        ["textContent", "textAlignHorizontal", "textAlignVertical"] := by decide
    rw [claimedSimilarity, h]
    have h2 : (List.filter
        (fun k => List.lookup k (simplifyNode sampleTextA false)
          == List.lookup k (simplifyNode sampleTextB false))
        ["textContent", "textAlignHorizontal", "textAlignVertical"]).length = 2 := by decide
    rw [h2]
    norm_num

theorem simKeys_nodup (a b : List (String × String)) : (simKeys a b).Nodup :=
  (nodup_dedupFirst _).filter _

theorem mem_simKeys (a b : List (String × String)) (k : String) :
    k ∈ simKeys a b ↔
      (k ∈ keysOf a ∨ k ∈ keysOf b) ∧ ¬(k = "id" ∨ k = "name" ∨ k = "children") := by
  unfold simKeys
  rw [List.mem_filter, mem_dedupFirst, List.mem_append]
  simp [List.contains_cons, beq_iff_eq, or_assoc]

theorem toFinset_simKeys (a b : List (String × String)) :
    (simKeys a b).toFinset = amendedKeys a b := by
  ext k
  rw [List.mem_toFinset, mem_simKeys]
  unfold amendedKeys
  simp [Finset.mem_sdiff, Finset.mem_union, List.mem_toFinset]

theorem length_simKeys (a b : List (String × String)) :
    (simKeys a b).length = (amendedKeys a b).card := by
  rw [← toFinset_simKeys, List.toFinset_card_of_nodup (simKeys_nodup a b)]

theorem length_simMatches (a b : List (String × String)) :
    (simMatches a b).length
      = ((amendedKeys a b).filter (fun k => a.lookup k = b.lookup k)).card := by
  have hnd : (simMatches a b).Nodup := (simKeys_nodup a b).filter _
  rw [← List.toFinset_card_of_nodup hnd]
  congr 1
  ext k
  rw [List.mem_toFinset]
  unfold simMatches
  rw [List.mem_filter, Finset.mem_filter, ← toFinset_simKeys, List.mem_toFinset]
  simp

/-- Claim C7 as amended: the score is the number of equal-valued keys over
the union of both key sets minus `{id, name, children}` — so the `type`
and `childCount` keys participate on both sides of the fraction — and 0
when that union is empty (no division by zero occurs). -/
theorem computeSimilarity_eq_amended (a b : List (String × String)) :
    computeSimilarity a b = amendedSimilarity a b := by
  unfold computeSimilarity amendedSimilarity
  rw [length_simKeys, length_simMatches]
  by_cases hK : (amendedKeys a b).card = 0
  · rw [hK]
    simp
  · rw [if_pos (Nat.pos_of_ne_zero hK), if_neg hK]

/-! ### Theorems: the state inference engine -/

/-- Counterexample to claim C5 as stated: a component set observing only
focus and disabled states (no default) still synthesizes the
Default↔Focus pair, a transition involving the unobserved canonical state
Default — the focus branch of the source checks only for an observed
focus state. -/
theorem infer_focus_counterexample :
    (handleInferStates { node := focusSetNode } noParse).states = ["Focus", "Disabled"] ∧
    (handleInferStates { node := focusSetNode } noParse).transitions = dfPair ∧
    (∀ s ∈ (handleInferStates { node := focusSetNode } noParse).states,
      jsToLower s ≠ "default") ∧
    (∃ t ∈ (handleInferStates { node := focusSetNode } noParse).transitions,
      t.fromState = "Default") := by
  decide

theorem any_congr_fun (l : List String) (p q : String → Bool) (h : ∀ s, p s = q s) :
    l.any p = l.any q := by
  induction l with
  | nil => rfl
  | cons x rest ih => rw [List.any_cons, List.any_cons, h x, ih]

theorem any_or_split (l : List String) (p q : String → Bool) :
    l.any (fun s => p s || q s) = (l.any p || l.any q) := by
  induction l with
  | nil => rfl
  | cons x rest ih =>
      rw [List.any_cons, List.any_cons, List.any_cons, ih]
      cases p x <;> cases q x <;> simp

theorem find_isSome_eq_any (l : List String) (p : String → Bool) :
    (l.find? p).isSome = l.any p := by
  induction l with
  | nil => rfl
  | cons x rest ih =>
      by_cases hp : p x
      · rw [List.find?_cons_of_pos _ hp, List.any_cons, hp]
        rfl
      · rw [List.find?_cons_of_neg _ (by simpa using hp), List.any_cons, ih]
        simp [hp]

/-- Searching the canonical-filtered states for lowercase `c` is the same
as searching all states, as long as `c` is itself in the lowercase
canonical vocabulary. -/
theorem foundInteraction_find_single (sts : List String) (c : String)
    (hc : interactionStates.any (fun t => c == jsToLower t) = true) :
    ((foundInteraction sts).find? (fun s => jsToLower s == c)).isSome
      = hasLowerState sts c := by
  rw [find_isSome_eq_any]
  unfold foundInteraction hasLowerState
  rw [List.any_filter]
  apply any_congr_fun
  intro s
  by_cases hs : (jsToLower s == c) = true
  · have he : jsToLower s = c := by simpa using hs
    rw [hs, Bool.and_true, he, hc]
  · have hs' : (jsToLower s == c) = false := by simpa using hs
    rw [hs', Bool.and_false]

theorem foundInteraction_find_active_pressed (sts : List String) :
    ((foundInteraction sts).find?
        (fun s => jsToLower s == "active" || jsToLower s == "pressed")).isSome
      = (hasLowerState sts "active" || hasLowerState sts "pressed") := by
  rw [find_isSome_eq_any]
  unfold foundInteraction
  rw [List.any_filter]
  have h : ∀ s : String,
      ((interactionStates.any (fun t => jsToLower s == jsToLower t))
        && (jsToLower s == "active" || jsToLower s == "pressed"))
      = (jsToLower s == "active" || jsToLower s == "pressed") := by
    intro s
    by_cases ha : (jsToLower s == "active") = true
    · have he : jsToLower s = "active" := by simpa using ha
      rw [ha, he]
      decide
    · have ha' : (jsToLower s == "active") = false := by simpa using ha
      by_cases hp : (jsToLower s == "pressed") = true
      · have he : jsToLower s = "pressed" := by simpa using hp
        rw [hp, he]
        decide
      · have hp' : (jsToLower s == "pressed") = false := by simpa using hp
        rw [ha', hp']
        simp
  rw [any_congr_fun _ _ _ h, any_or_split]
  rfl

/-- Claim C5 as amended: inside the at-least-two-canonical-states guard,
Default↔Hover requires both default and hover observed, Hover↔Active
requires hover and an active-or-pressed state observed, but Default↔Focus
is synthesized whenever a focus state is observed — even when no default
state was observed — and the synthesized endpoints are always the fixed
names Default/Hover/Active/Focus regardless of the observed spelling. -/
theorem inferNameTransitions_characterization (sts : List String) :
    inferNameTransitions sts =
      if 1 < (foundInteraction sts).length then
        (if hasLowerState sts "default" && hasLowerState sts "hover" then dhPair else [])
        ++ (if hasLowerState sts "hover"
              && (hasLowerState sts "active" || hasLowerState sts "pressed")
            then haPair else [])
        ++ (if hasLowerState sts "focus" then dfPair else [])
      else [] := by
  simp only [inferNameTransitions]
  rw [foundInteraction_find_single sts "default" (by decide),
      foundInteraction_find_single sts "hover" (by decide),
      foundInteraction_find_single sts "focus" (by decide),
      foundInteraction_find_active_pressed sts]

/-- Counterexample to claim C6 as stated: with one hover variant and an
unparseable annotation blob, the call succeeds but the `annotations`
source *is* recorded and the confidence *is* 0.4 + 0.3 = 0.7, not the 0.4
that the same node yields with no annotation stored. -/
theorem infer_unparseable_annotation_counterexample :
    (handleInferStates annotSetInput noParse).states = ["Hover"] ∧
    "annotations" ∈ (handleInferStates annotSetInput noParse).sources ∧
    (handleInferStates annotSetInput noParse).confidence = 7 / 10 ∧
    "annotations" ∉ (handleInferStates annotAbsentInput noParse).sources ∧
    (handleInferStates annotAbsentInput noParse).confidence = 2 / 5 := by
  refine ⟨by decide, by decide, ?_, by decide, ?_⟩
  · have h1 : inferSources annotSetInput = ["variant-names", "annotations"] := by decide
    have h2 : (inferStatesList annotSetInput noParse).length = 1 := by decide
    show confidenceOf (inferSources annotSetInput)
      (inferStatesList annotSetInput noParse).length = 7 / 10
    rw [h1, h2, confidenceOf]
    have c2 : (["variant-names", "annotations"].contains "prototype-reactions") = false := by
      decide
    simp only [List.contains_cons, c2, beq_self_eq_true, Bool.or_true, Bool.true_or, if_true,
      Bool.false_eq_true, if_false]
    norm_num
  · have h1 : inferSources annotAbsentInput = ["variant-names"] := by decide
    have h2 : (inferStatesList annotAbsentInput noParse).length = 1 := by decide
    show confidenceOf (inferSources annotAbsentInput)
      (inferStatesList annotAbsentInput noParse).length = 2 / 5
    rw [h1, h2, confidenceOf]
    have c2 : (["variant-names"].contains "prototype-reactions") = false := by decide
    have c3 : (["variant-names"].contains "annotations") = false := by decide
    simp only [List.contains_cons, c2, c3, beq_self_eq_true, Bool.or_true, Bool.true_or, if_true,
      Bool.false_eq_true, if_false]
    norm_num

theorem contains_append_str (l1 l2 : List String) (a : String) :
    (l1 ++ l2).contains a = (l1.contains a || l2.contains a) := by
  induction l1 with
  | nil => simp
  | cons x rest ih =>
      rw [List.cons_append, List.contains_cons, List.contains_cons, ih, Bool.or_assoc]

theorem confidenceOf_append_annot (srcs : List String) (n : Nat)
    (h : srcs.contains "annotations" = false) :
    confidenceOf (srcs ++ ["annotations"]) n
      = (if n = 0 then 0 else confidenceOf srcs n + 0.3) := by
  unfold confidenceOf
  by_cases hn : n = 0
  · rw [if_pos hn, if_pos hn]
  · rw [if_neg hn, if_neg hn, if_neg hn]
    rw [contains_append_str, contains_append_str, contains_append_str, h]
    have c1 : (["annotations"] : List String).contains "variant-names" = false := by decide
    have c2 : (["annotations"] : List String).contains "prototype-reactions" = false := by decide
    have c3 : (["annotations"] : List String).contains "annotations" = true := by decide
    rw [c1, c2, c3]
    simp

theorem inferHasAnnot_erased (inp : InferInput) :
    inferHasAnnot { inp with annotRaw := "" } = false := by
  unfold inferHasAnnot
  simp

theorem annotations_not_in_sources (inp : InferInput) (h : inferHasAnnot inp = false) :
    (inferSources inp).contains "annotations" = false := by
  unfold inferSources
  rw [h]
  by_cases h1 : inferIsSet inp <;> by_cases h2 : inferHasReacts inp <;>
    simp [h1, h2]

theorem inferSources_with_annot (inp : InferInput) (h : inferHasAnnot inp = true) :
    inferSources inp = inferSources { inp with annotRaw := "" } ++ ["annotations"] := by
  unfold inferSources
  rw [h, inferHasAnnot_erased]
  have h1 : inferIsSet { inp with annotRaw := "" } = inferIsSet inp := rfl
  have h2 : inferHasReacts { inp with annotRaw := "" } = inferHasReacts inp := rfl
  rw [h1, h2]
  simp

/-- Claim C6 as amended: unparseable persisted annotation content never
fails the call and contributes no states and no transitions — the state
and transition lists equal those of the same node with no annotation
stored — but the `annotations` source *is* recorded (it is pushed before
parsing) and its 0.3 weight *is* added to the reported confidence, except
when the final state list is empty, which forces confidence 0. -/
theorem inferStates_unparseable_amended (inp : InferInput)
    (parseAnn : String → Option AnnParsed)
    (hraw : inp.annotRaw ≠ "") (hfail : parseAnn inp.annotRaw = none) :
    (handleInferStates inp parseAnn).states
      = (handleInferStates { inp with annotRaw := "" } parseAnn).states ∧
    (handleInferStates inp parseAnn).transitions
      = (handleInferStates { inp with annotRaw := "" } parseAnn).transitions ∧
    "annotations" ∈ (handleInferStates inp parseAnn).sources ∧
    (handleInferStates inp parseAnn).confidence =
      (if (handleInferStates inp parseAnn).states.length = 0 then 0
       else (handleInferStates { inp with annotRaw := "" } parseAnn).confidence + 0.3) := by
  have hA : inferHasAnnot inp = true := by
    unfold inferHasAnnot
    exact decide_eq_true hraw
  have hA0 := inferHasAnnot_erased inp
  have hstates : inferStatesList inp parseAnn = inferS1 inp := by
    unfold inferStatesList
    rw [hfail]
    simp [hA]
  have hstates0 : inferStatesList { inp with annotRaw := "" } parseAnn = inferS1 inp := by
    unfold inferStatesList
    simp [hA0]
    rfl
  have htrans : inferTransList inp parseAnn = inferT2 inp := by
    unfold inferTransList
    rw [hfail]
    simp [hA]
  have htrans0 : inferTransList { inp with annotRaw := "" } parseAnn = inferT2 inp := by
    unfold inferTransList
    simp [hA0]
    rfl
  refine ⟨?_, ?_, ?_, ?_⟩
  · show inferStatesList inp parseAnn = inferStatesList { inp with annotRaw := "" } parseAnn
    rw [hstates, hstates0]
  · show inferTransList inp parseAnn = inferTransList { inp with annotRaw := "" } parseAnn
    rw [htrans, htrans0]
  · show "annotations" ∈ inferSources inp
    rw [inferSources_with_annot inp hA]
    exact List.mem_append_right _ (List.mem_singleton.mpr rfl)
  · show confidenceOf (inferSources inp) (inferStatesList inp parseAnn).length
      = (if (inferStatesList inp parseAnn).length = 0 then 0
         else confidenceOf (inferSources { inp with annotRaw := "" })
           (inferStatesList { inp with annotRaw := "" } parseAnn).length + 0.3)
    rw [inferSources_with_annot inp hA,
      confidenceOf_append_annot _ _ (annotations_not_in_sources _ hA0),
      hstates, hstates0]

/-- Witness for C6 (amended): the theorem applied to the concrete
unparseable-annotation input. -/
theorem inferStates_unparseable_amended_witness :
    (handleInferStates annotSetInput noParse).states
      = (handleInferStates { annotSetInput with annotRaw := "" } noParse).states ∧
    "annotations" ∈ (handleInferStates annotSetInput noParse).sources ∧
    (handleInferStates annotSetInput noParse).confidence =
      (if (handleInferStates annotSetInput noParse).states.length = 0 then 0
       else (handleInferStates { annotSetInput with annotRaw := "" } noParse).confidence + 0.3) := by
  have h := inferStates_unparseable_amended annotSetInput noParse (by decide) rfl
  exact ⟨h.1, h.2.2.1, h.2.2.2⟩

end Forage
